import Mathlib

/-!
Verification of the ice9 host-side USB driver core (src/ice9.c).

The C code is shallowly embedded:
  * byte memory (the ring buffer backing store, the bank buffer, the
    caller-visible destination buffers) is modelled as a function
    `Nat → Nat`, with `memwrite` playing the role of `memcpy` into it and
    `readBytes` the role of `memcpy` out of it;
  * the `struct ice9_handle` becomes the structure `Ice9Handle`; pointer
    fields (`extra_data_read_pointer`) become offsets from the start of
    their buffer;
  * the USB transport (`libusb_bulk_transfer` on the IN endpoint) is
    modelled as a list of incoming bulk transfers, consumed one per loop
    iteration; an empty list stands for a transport failure (the code
    returns the generic `Error` in that case), modelled as `none`;
  * C `int` counts are natural numbers: in every modelled code path they
    are non-negative, and `Nat` truncated subtraction coincides with the C
    arithmetic there.  The destuffing loop's behaviour on a transfer
    shorter than the 2-byte header is undefined in the reference (spec
    section 4.2) and outside every claim.
-/

def RING_BUFFER_SIZE : Nat := 1024 * 1024

def BANK_SIZE : Nat := 1024 * 1024

/-- The error enumeration `Ice9Error` from src/ice9.h. -/
inductive Ice9Error where
  | OK
  | Error
  | UnableToOpenBitFile
  | DownloadOfBitFileFailed
  | USBDeviceNotFound
  | UnableToOpenDevice
  | UnableToClaimDevice
  | ResetFailed
  | SetBaudrateFailed
  | GetProductDescriptionFailed
  | GetSerialNumberFailed
  | GetDeviceListFromLibUSBFailed
  | GetDeviceDescriptorFromLibUSBFailed
  | FTDIResetFailed
  | USBDeviceUnavailable
  | UnknownInterface
  | DeviceAlreadyOpen
  | CannotEnableBitBangMode
  | LatencyValueOutOfRange
  | UnableToSetLatencyTimer
  | USBReleaseFailed
  | FTDIContextInvalid
  | LibUSBIOError
  | LibUSBInvalidParameter
  | LibUSBAccessDenied
  | LibUSBNoDeviceFound
  | LibUSBEntityNotFound
  | LibUSBResourceBusy
  | LibUSBTimeout
  | LibUSBOverflow
  | LibUSBPipeError
  | LibUSBInterrupted
  | LibUSBInsufficientMemory
  | LibUSBOperationNotSupported
  | LibUSBOtherError
  | PartialWrite
  | NoDataAvailable
  | StreamReadComplete
  | PingMismatch
  deriving DecidableEq, Repr

/-- Byte-memory write: `memwrite m p s` is `m` after `memcpy(m + p, s, s.length)`. -/
def memwrite (m : Nat → Nat) (p : Nat) (s : List Nat) : Nat → Nat :=
  fun i => if p ≤ i ∧ i < p + s.length then s.getD (i - p) 0 else m i

/-- Byte-memory read: `readBytes m start count` is the `count` bytes at `m + start`
(`memcpy` out of the buffer). -/
def readBytes (m : Nat → Nat) : Nat → Nat → List Nat
  | _, 0 => []
  | start, count + 1 => m start :: readBytes m (start + 1) count

/-- The modelled fields of `struct ice9_handle` (src/ice9.c lines 15-29).
The libusb context/device pointers and the scratch `bulk_sync_read_buffer`
carry no modelled state.  `extra_data_read_off` is the offset
`extra_data_read_pointer - extra_data_buffer`. -/
structure Ice9Handle where
  read_buffer : Nat → Nat
  read_buffer_head : Nat
  read_buffer_tail : Nat
  stream_bytes_to_read : Nat
  stream_bytes_read_so_far : Nat
  stream_data : Nat → Nat
  extra_data_buffer : Nat → Nat
  extra_data_read_off : Nat
  extra_data_bytes : Nat

/-- `ice9_new` (src/ice9.c lines 98-112): fresh handle, empty ring buffer
(head = tail = 0), empty bank buffer.  Freshly allocated byte stores are
modelled as all-zero; the code never reads them before writing. -/
def ice9_new : Ice9Handle :=
  { read_buffer := fun _ => 0
    read_buffer_head := 0
    read_buffer_tail := 0
    stream_bytes_to_read := 0
    stream_bytes_read_so_far := 0
    stream_data := fun _ => 0
    extra_data_buffer := fun _ => 0
    extra_data_read_off := 0
    extra_data_bytes := 0 }

/-- `bytes_in_read_buffer` (src/ice9.c lines 40-42). -/
def bytes_in_read_buffer (hnd : Ice9Handle) : Nat :=
  (hnd.read_buffer_head + RING_BUFFER_SIZE - hnd.read_buffer_tail) % RING_BUFFER_SIZE

/-- `free_space_in_read_buffer` (src/ice9.c lines 46-48). -/
def free_space_in_read_buffer (hnd : Ice9Handle) : Nat :=
  RING_BUFFER_SIZE - 1 - bytes_in_read_buffer hnd

/-- `drain_from_read_buffer` (src/ice9.c lines 54-73).  Returns the bytes
copied to the destination (their number is the C return value) and the
updated handle. -/
def drain_from_read_buffer (hnd : Ice9Handle) (count : Nat) : List Nat × Ice9Handle :=
  let in_buffer := bytes_in_read_buffer hnd
  let count2 := min count in_buffer
  let first_transfer := min count2 (RING_BUFFER_SIZE - hnd.read_buffer_tail)
  let part1 := readBytes hnd.read_buffer hnd.read_buffer_tail first_transfer
  let tail1 := (hnd.read_buffer_tail + first_transfer) % RING_BUFFER_SIZE
  let second_transfer := count2 - first_transfer
  let part2 := readBytes hnd.read_buffer tail1 second_transfer
  (part1 ++ part2, { hnd with read_buffer_tail := tail1 + second_transfer })

/-- `enqueue_to_read_buffer` (src/ice9.c lines 77-95).  Returns the number
of bytes actually written and the updated handle. -/
def enqueue_to_read_buffer (hnd : Ice9Handle) (src : List Nat) (count : Nat) :
    Nat × Ice9Handle :=
  let buffer_space := free_space_in_read_buffer hnd
  let count2 := min count buffer_space
  let first_transfer := min count2 (RING_BUFFER_SIZE - hnd.read_buffer_head)
  let data1 := memwrite hnd.read_buffer hnd.read_buffer_head (src.take first_transfer)
  let head1 := (hnd.read_buffer_head + first_transfer) % RING_BUFFER_SIZE
  let second_transfer := count2 - first_transfer
  let data2 := memwrite data1 head1 ((src.drop first_transfer).take second_transfer)
  (count2, { hnd with read_buffer := data2, read_buffer_head := head1 + second_transfer })

/-- Observer: the queue of bytes currently held by the ring buffer, oldest
first (positions `tail, tail+1, ...` mod the capacity). -/
def readWrap (m : Nat → Nat) : Nat → Nat → List Nat
  | _, 0 => []
  | start, count + 1 => m (start % RING_BUFFER_SIZE) :: readWrap m (start + 1) count

/-- Observer: contents of the ring buffer as a byte queue. -/
def ringContents (hnd : Ice9Handle) : List Nat :=
  readWrap hnd.read_buffer hnd.read_buffer_tail (bytes_in_read_buffer hnd)

/-- A call against the ring buffer: one `enqueue_to_read_buffer` or one
`drain_from_read_buffer`, used to quantify over call sequences. -/
inductive RingOp where
  | enq (src : List Nat) (count : Nat)
  | drn (count : Nat)

/-- Apply one ring-buffer call to a handle. -/
def applyRingOp (hnd : Ice9Handle) : RingOp → Ice9Handle
  | RingOp.enq src count => (enqueue_to_read_buffer hnd src count).2
  | RingOp.drn count => (drain_from_read_buffer hnd count).2

/-- Apply a sequence of ring-buffer calls to a handle. -/
def applyRingOps (hnd : Ice9Handle) (ops : List RingOp) : Ice9Handle :=
  ops.foldl applyRingOp hnd

/-- The status-stripping loop of `ice9_stream_read` (src/ice9.c lines
352-359), with an explicit fuel bound on iterations.  Each iteration
consumes `to_copy + 2 ≥ 2` input bytes, so `l.length` fuel always
suffices (see `destuff`). -/
def destuffLoop : Nat → List Nat → List Nat
  | 0, _ => []
  | fuel + 1, l =>
    if l.length = 0 then []
    else
      let to_copy := min 510 (l.length - 2)
      (l.drop 2).take to_copy ++ destuffLoop fuel (l.drop (to_copy + 2))

/-- The Packet Destuffer: strip the 2-byte status prefix from each
(up to) 512-byte stride of a raw bulk transfer. -/
def destuff (l : List Nat) : List Nat :=
  destuffLoop l.length l

/-- The loop of `ice9_read` (src/ice9.c lines 385-411).  `transfers` is
the sequence of bulk transfers the device delivers, one consumed per
iteration; `none` models the loop aborting with `Error` when a transfer
fails (line 395).  Returns the destination bytes, the updated handle and
the transfers left unconsumed. -/
def ice9_read_loop : List (List Nat) → Ice9Handle → List Nat → Nat →
    Option (List Nat × Ice9Handle × List (List Nat))
  | transfers, hnd, acc, num_bytes =>
    if num_bytes = 0 then some (acc, hnd, transfers)
    else
      match transfers with
      | [] => none
      | buffer :: rest =>
        let bytes_read := buffer.length
        if bytes_read > 2 then
          let pass_through := min num_bytes (bytes_read - 2)
          let read_bytes_leftover := bytes_read - 2 - pass_through
          let acc2 := acc ++ (buffer.drop 2).take pass_through
          let num2 := num_bytes - pass_through
          let hnd2 :=
            if num2 = 0 ∧ read_bytes_leftover > 0 then
              (enqueue_to_read_buffer hnd (buffer.drop pass_through) read_bytes_leftover).2
            else hnd
          ice9_read_loop rest hnd2 acc2 num2
        else ice9_read_loop rest hnd acc num_bytes

/-- `ice9_read` (src/ice9.c lines 379-413): drain the ring buffer first,
then siphon 512-byte packets from the device. -/
def ice9_read (hnd : Ice9Handle) (num_bytes : Nat) (transfers : List (List Nat)) :
    Option (List Nat × Ice9Handle × List (List Nat)) :=
  let dr := drain_from_read_buffer hnd num_bytes
  ice9_read_loop transfers dr.2 dr.1 (num_bytes - dr.1.length)

/-- The loop of `ice9_stream_read` (src/ice9.c lines 334-375): destuff
each transfer, pass through what the caller still needs, enqueue any
destuffed leftover into the ring buffer. -/
def ice9_stream_read_loop : List (List Nat) → Ice9Handle → List Nat → Nat →
    Option (List Nat × Ice9Handle × List (List Nat))
  | transfers, hnd, acc, num_bytes =>
    if num_bytes = 0 then some (acc, hnd, transfers)
    else
      match transfers with
      | [] => none
      | buffer :: rest =>
        let buffer_stripped := destuff buffer
        let valid_read := buffer_stripped.length
        let pass_through := min num_bytes valid_read
        let acc2 := acc ++ buffer_stripped.take pass_through
        let num2 := num_bytes - pass_through
        let valid2 := valid_read - pass_through
        let hnd2 :=
          if num2 = 0 ∧ valid2 ≠ 0 then
            (enqueue_to_read_buffer hnd (buffer_stripped.drop pass_through) valid2).2
          else hnd
        ice9_stream_read_loop rest hnd2 acc2 num2

/-- `ice9_stream_read` (src/ice9.c lines 328-377). -/
def ice9_stream_read (hnd : Ice9Handle) (num_bytes : Nat) (transfers : List (List Nat)) :
    Option (List Nat × Ice9Handle × List (List Nat)) :=
  let dr := drain_from_read_buffer hnd num_bytes
  ice9_stream_read_loop transfers dr.2 dr.1 (num_bytes - dr.1.length)

/-- `transfer_bytes` (src/ice9.c lines 263-270): copy
`min(stream_bytes_to_read, available)` bytes of `src` into the stream
destination at offset `stream_bytes_read_so_far`. -/
def transfer_bytes (hnd : Ice9Handle) (src : List Nat) (available : Nat) :
    Nat × Ice9Handle :=
  let to_copy := min hnd.stream_bytes_to_read available
  (to_copy,
    { hnd with
      stream_data := memwrite hnd.stream_data hnd.stream_bytes_read_so_far (src.take to_copy)
      stream_bytes_read_so_far := hnd.stream_bytes_read_so_far + to_copy
      stream_bytes_to_read := hnd.stream_bytes_to_read - to_copy })

/-- `bank_bytes` (src/ice9.c lines 272-283): append `to_bank` bytes at the
tail of the bank buffer's used region; `-1` signals overflow, `1` success.
Note the overflow test compares against `extra_data_read_pointer -
extra_data_buffer` only. -/
def bank_bytes (hnd : Ice9Handle) (src : List Nat) (to_bank : Nat) : Int × Ice9Handle :=
  let bank_used := hnd.extra_data_read_off
  if to_bank + bank_used ≥ BANK_SIZE then (-1, hnd)
  else
    (1,
      { hnd with
        extra_data_buffer :=
          memwrite hnd.extra_data_buffer (hnd.extra_data_read_off + hnd.extra_data_bytes)
            (src.take to_bank)
        extra_data_bytes := hnd.extra_data_bytes + to_bank })

/-- `read_callback` (src/ice9.c lines 285-316): the streaming completion
callback.  Returns the C callback's value (0 = want more data, 1 = done,
negative = banking failure) and the updated handle. -/
def read_callback (hnd : Ice9Handle) (buffer : List Nat) (len : Nat) : Int × Ice9Handle :=
  let store := readBytes hnd.extra_data_buffer hnd.extra_data_read_off hnd.extra_data_bytes
  let r1 := transfer_bytes hnd store hnd.extra_data_bytes
  let copy_from_store := r1.1
  let h1 := r1.2
  let extra_was_nonzero := h1.extra_data_bytes ≠ 0
  let h2 :=
    { h1 with
      extra_data_read_off := h1.extra_data_read_off + copy_from_store
      extra_data_bytes := h1.extra_data_bytes - copy_from_store }
  let h3 :=
    if extra_was_nonzero ∧ h2.extra_data_bytes = 0 then
      { h2 with extra_data_read_off := 0, extra_data_buffer := fun _ => 0 }
    else h2
  let r2 := transfer_bytes h3 buffer len
  let copy_from_new := r2.1
  let h4 := r2.2
  let rem := buffer.drop copy_from_new
  let len2 := len - copy_from_new
  if h4.stream_bytes_to_read ≠ 0 then (0, h4)
  else if len2 = 0 then (1, h4)
  else bank_bytes h4 rem len2

/-- `ice9_write` (src/ice9.c lines 415-424), as a function of the backend
bulk-transfer return code and the byte count it reports. -/
def ice9_write_result (ret : Int) (actual_length num_bytes : Nat) : Ice9Error :=
  if ret < 0 then Ice9Error.LibUSBIOError
  else if actual_length ≠ num_bytes then Ice9Error.PartialWrite
  else Ice9Error.OK

/-- The error branch of `ice9_read` (src/ice9.c lines 393-396): the domain
error produced for a backend return code, `none` when the code is
non-negative (no error). -/
def ice9_read_error_map (ret : Int) : Option Ice9Error :=
  if ret < 0 then some Ice9Error.Error else none

/-- The error branch of `ice9_stream_read` (src/ice9.c lines 343-346). -/
def ice9_stream_read_error_map (ret : Int) : Option Ice9Error :=
  if ret < 0 then some Ice9Error.Error else none

/-- `ice9_write_words` sends its words unchanged over `ice9_write`
(src/ice9.c lines 426-428); the wire trace of a call is the first `len`
words of `data`. -/
def ice9_write_words_trace (data : List Nat) (len : Nat) : List Nat :=
  data.take len

/-- Wire trace of `ice9_write_data_to_address` (src/ice9.c lines 438-444):
header `[0x0300 | address, len]`, then the payload words. -/
def ice9_write_data_to_address_trace (address : Nat) (data : List Nat) (len : Nat) :
    List Nat :=
  ice9_write_words_trace [0x0300 ||| address, len] 2 ++ ice9_write_words_trace data len

/-- Wire trace of `ice9_write_int_to_address` (src/ice9.c lines 450-455). -/
def ice9_write_int_to_address_trace (address value : Nat) : List Nat :=
  ice9_write_data_to_address_trace address
    [(value >>> 16) &&& 0xFFFF, value &&& 0xFFFF] 2

/-- Words written by `ice9_read_data_from_address` (src/ice9.c lines
464-470): header `[0x0200 | address, len]`. -/
def ice9_read_data_from_address_trace (address len : Nat) : List Nat :=
  ice9_write_words_trace [0x0200 ||| address, len] 2

/-- Number of words `ice9_read_data_from_address` reads back after its
header (src/ice9.c line 469). -/
def ice9_read_data_from_address_read_count (len : Nat) : Nat := len

/-- The word written by `ice9_send_ping` (src/ice9.c lines 472-474). -/
def ice9_send_ping_word (pingid : Nat) : Nat := 0x0100 ||| pingid

/-- The word written by `ice9_enable_streaming` (src/ice9.c lines 489-491). -/
def ice9_enable_streaming_word (address : Nat) : Nat := 0x0500 ||| address

/-- The word written by `ice9_disable_streaming` (src/ice9.c lines 493-495). -/
def ice9_disable_streaming_word : Nat := 0xFFFF

/-- `ice9_ping_bridge` (src/ice9.c lines 476-487) as a function of the
transport outcomes: `write_res` is what `ice9_send_ping` returned,
`read_res` what `ice9_read_words` returned, and `pingret` the word read
back on success.  `lib_try` propagates any non-`OK` code immediately. -/
def ice9_ping_bridge (pingid : Nat) (write_res read_res : Ice9Error) (pingret : Nat) :
    Ice9Error :=
  if write_res ≠ Ice9Error.OK then write_res
  else if read_res ≠ Ice9Error.OK then read_res
  else if pingret &&& 0xFF ≠ pingid then Ice9Error.PingMismatch
  else Ice9Error.OK

/-- Ring-buffer invariant: head and tail indices in bounds. -/
def RingInv (hnd : Ice9Handle) : Prop :=
  hnd.read_buffer_head < RING_BUFFER_SIZE ∧ hnd.read_buffer_tail < RING_BUFFER_SIZE

/-- The 1020 payload bytes of the end-to-end read scenario (spec section 8):
incrementing bytes split over two 512-byte packets. -/
def c1_payload : List Nat := (List.range 1020).map (fun i => i % 256)

/-- First 512-byte packet: 2-byte status prefix, then payload bytes 0-509. -/
def c1_packet1 : List Nat := [0xAA, 0xBB] ++ c1_payload.take 510

/-- Second 512-byte packet: 2-byte status prefix, then payload bytes 510-1019. -/
def c1_packet2 : List Nat := [0xAA, 0xBB] ++ c1_payload.drop 510

/-- Third 512-byte packet of the scenario (never consumed by the 1000-byte read). -/
def c1_packet3 : List Nat := [0xAA, 0xBB] ++ (List.range 510).map (fun i => (i + 1020) % 256)

/-- A handle whose bank buffer legitimately holds `BANK_SIZE - 1` banked
bytes starting at read offset 0 (reachable by banking that many bytes). -/
def c3_state : Ice9Handle := { ice9_new with extra_data_bytes := BANK_SIZE - 1 }

/-- The 150 destuffed chunk bytes of the streaming scenario (spec section 8). -/
def c6_chunk : List Nat := (List.range 150).map (fun i => i % 256)

/-- The raw bulk transfer delivering that chunk: one stride of 2-byte
status prefix plus 150 payload bytes. -/
def c6_transfer : List Nat := [0xAA, 0xBB] ++ c6_chunk

/-- A handle mid-stream-request: 2 bytes already filled, 4 still wanted. -/
def c10_handle : Ice9Handle :=
  { ice9_new with stream_bytes_to_read := 4, stream_bytes_read_so_far := 2 }

lemma memwrite_nil (m : Nat → Nat) (p : Nat) : memwrite m p [] = m := by
  funext i
  simp [memwrite]

lemma memwrite_out {m : Nat → Nat} {p : Nat} {s : List Nat} {i : Nat}
    (h : i < p ∨ p + s.length ≤ i) : memwrite m p s i = m i := by
  unfold memwrite
  rw [if_neg]
  omega

lemma readBytes_congr {m1 m2 : Nat → Nat} (start count : Nat)
    (h : ∀ i, start ≤ i → i < start + count → m1 i = m2 i) :
    readBytes m1 start count = readBytes m2 start count := by
  induction count generalizing start with
  | zero => rfl
  | succ k ih =>
    simp only [readBytes]
    refine congrArg₂ _ (h start le_rfl (by omega)) (ih (start + 1) ?_)
    intro i h1 h2
    exact h i (by omega) (by omega)

lemma readBytes_memwrite (m : Nat → Nat) (p : Nat) (s : List Nat) :
    readBytes (memwrite m p s) p s.length = s := by
  induction s generalizing m p with
  | nil => rfl
  | cons b rest ih =>
    simp only [List.length_cons, readBytes]
    refine congrArg₂ _ ?_ ?_
    · simp [memwrite]
    · calc readBytes (memwrite m p (b :: rest)) (p + 1) rest.length
          = readBytes (memwrite m (p + 1) rest) (p + 1) rest.length := by
            refine readBytes_congr _ _ ?_
            intro i h1 h2
            simp only [memwrite, List.length_cons]
            rw [if_pos (by omega), if_pos (by omega)]
            have hip : i - p = (i - (p + 1)) + 1 := by omega
            rw [hip, List.getD_cons_succ]
        _ = rest := ih _ _

lemma readBytes_memwrite_disjoint {m : Nat → Nat} {p : Nat} {s : List Nat}
    {start count : Nat} (h : start + count ≤ p ∨ p + s.length ≤ start) :
    readBytes (memwrite m p s) start count = readBytes m start count := by
  refine readBytes_congr _ _ ?_
  intro i h1 h2
  exact memwrite_out (by omega)

lemma readBytes_memwrite_general (m : Nat → Nat) (p : Nat) (s : List Nat) (n : Nat)
    (h : n = s.length) : readBytes (memwrite m p s) p n = s := by
  subst h
  exact readBytes_memwrite m p s

lemma readBytes_memwrite_disjoint_right (m : Nat → Nat) (p : Nat) (s : List Nat)
    (start count : Nat) (h : p + s.length ≤ start) :
    readBytes (memwrite m p s) start count = readBytes m start count :=
  readBytes_memwrite_disjoint (Or.inr h)

lemma enqueue_spec (hnd : Ice9Handle) (src : List Nat) (count : Nat)
    (hh : hnd.read_buffer_head < RING_BUFFER_SIZE)
    (ht : hnd.read_buffer_tail < RING_BUFFER_SIZE) :
    (enqueue_to_read_buffer hnd src count).1 = min count (free_space_in_read_buffer hnd) ∧
    (enqueue_to_read_buffer hnd src count).2.read_buffer_head < RING_BUFFER_SIZE ∧
    (enqueue_to_read_buffer hnd src count).2.read_buffer_tail = hnd.read_buffer_tail ∧
    bytes_in_read_buffer (enqueue_to_read_buffer hnd src count).2
      = bytes_in_read_buffer hnd + min count (free_space_in_read_buffer hnd) := by
  simp only [enqueue_to_read_buffer, bytes_in_read_buffer, free_space_in_read_buffer,
    RING_BUFFER_SIZE] at *
  refine ⟨by trivial, ?_, by trivial, ?_⟩ <;> omega

lemma drain_spec (hnd : Ice9Handle) (count : Nat)
    (hh : hnd.read_buffer_head < RING_BUFFER_SIZE)
    (ht : hnd.read_buffer_tail < RING_BUFFER_SIZE) :
    (drain_from_read_buffer hnd count).2.read_buffer_tail < RING_BUFFER_SIZE ∧
    (drain_from_read_buffer hnd count).2.read_buffer_head = hnd.read_buffer_head := by
  simp only [drain_from_read_buffer, bytes_in_read_buffer, RING_BUFFER_SIZE] at *
  refine ⟨?_, by trivial⟩
  omega

lemma ringInv_new : RingInv ice9_new := by
  constructor <;> simp [ice9_new, RING_BUFFER_SIZE]

lemma ringInv_applyRingOp {hnd : Ice9Handle} (h : RingInv hnd) (op : RingOp) :
    RingInv (applyRingOp hnd op) := by
  obtain ⟨hh, ht⟩ := h
  cases op with
  | enq src count =>
    have := enqueue_spec hnd src count hh ht
    exact ⟨this.2.1, this.2.2.1 ▸ ht⟩
  | drn count =>
    have := drain_spec hnd count hh ht
    exact ⟨this.2 ▸ hh, this.1⟩

lemma ringInv_applyRingOps (ops : List RingOp) {hnd : Ice9Handle} (h : RingInv hnd) :
    RingInv (applyRingOps hnd ops) := by
  induction ops generalizing hnd with
  | nil => exact h
  | cons op rest ih => exact ih (ringInv_applyRingOp h op)

lemma destuffLoop_nil (fuel : Nat) : destuffLoop fuel [] = [] := by
  cases fuel <;> simp [destuffLoop]

lemma destuffLoop_strides (packets : List (List Nat)) (fuel : Nat)
    (hp : ∀ p ∈ packets, p.length = 512) (hf : packets.flatten.length ≤ fuel) :
    destuffLoop fuel packets.flatten = (packets.map (fun p => p.drop 2)).flatten := by
  induction packets generalizing fuel with
  | nil => simp [destuffLoop_nil]
  | cons p ps ih =>
    have hp512 : p.length = 512 := hp p (by simp)
    simp only [List.flatten_cons] at hf ⊢
    have hlenj : (p ++ ps.flatten).length = 512 + ps.flatten.length := by simp [hp512]
    match fuel with
    | 0 => exact absurd hf (by omega)
    | f + 1 =>
      rw [destuffLoop, if_neg (by omega)]
      have hmin : min 510 ((p ++ ps.flatten).length - 2) = 510 := by omega
      simp only [hmin]
      have hdrop2 : (p ++ ps.flatten).drop 2 = p.drop 2 ++ ps.flatten := by
        rw [List.drop_append_eq_append_drop]
        simp [hp512]
      have htake : (p.drop 2 ++ ps.flatten).take 510 = p.drop 2 := by
        rw [List.take_append_eq_append_take]
        simp [List.length_drop, hp512]
      have hdrop512 : (p ++ ps.flatten).drop (510 + 2) = ps.flatten := by
        rw [List.drop_append_eq_append_drop]
        simp [hp512, List.drop_length]
      rw [hdrop2, htake, hdrop512, List.map_cons, List.flatten_cons]
      exact congrArg _ (ih f (fun q hq => hp q (by simp [hq])) (by omega))

lemma flatten_drop2_length (packets : List (List Nat))
    (hp : ∀ p ∈ packets, p.length = 512) :
    ((packets.map (fun p => p.drop 2)).flatten).length = packets.length * 510 := by
  induction packets with
  | nil => simp
  | cons p ps ih =>
    have hp512 : p.length = 512 := hp p (by simp)
    simp only [List.map_cons, List.flatten_cons, List.length_append, List.length_cons]
    rw [ih (fun q hq => hp q (by simp [hq]))]
    simp [List.length_drop, hp512]
    omega

lemma transfer_bytes_spec (hnd : Ice9Handle) (src : List Nat) (available : Nat) :
    (transfer_bytes hnd src available).1 = min hnd.stream_bytes_to_read available ∧
    (transfer_bytes hnd src available).2.stream_bytes_read_so_far
      = hnd.stream_bytes_read_so_far + min hnd.stream_bytes_to_read available ∧
    (transfer_bytes hnd src available).2.stream_bytes_to_read
      = hnd.stream_bytes_to_read - min hnd.stream_bytes_to_read available ∧
    (transfer_bytes hnd src available).2.stream_bytes_read_so_far
        + (transfer_bytes hnd src available).2.stream_bytes_to_read
      = hnd.stream_bytes_read_so_far + hnd.stream_bytes_to_read ∧
    (∀ i : Nat,
      i < hnd.stream_bytes_read_so_far ∨
        hnd.stream_bytes_read_so_far + min hnd.stream_bytes_to_read available ≤ i →
      (transfer_bytes hnd src available).2.stream_data i = hnd.stream_data i) := by
  refine ⟨rfl, rfl, rfl, by simp [transfer_bytes]; omega, ?_⟩
  intro i hi
  simp only [transfer_bytes]
  refine memwrite_out ?_
  have := List.length_take (min hnd.stream_bytes_to_read available) src
  omega

lemma transfer_bytes_sum (hnd : Ice9Handle) (src : List Nat) (available : Nat) :
    (transfer_bytes hnd src available).2.stream_bytes_read_so_far
        + (transfer_bytes hnd src available).2.stream_bytes_to_read
      = hnd.stream_bytes_read_so_far + hnd.stream_bytes_to_read :=
  (transfer_bytes_spec hnd src available).2.2.2.1

lemma transfer_bytes_frame_ge (hnd : Ice9Handle) (src : List Nat) (available i : Nat)
    (hi : hnd.stream_bytes_read_so_far + hnd.stream_bytes_to_read ≤ i) :
    (transfer_bytes hnd src available).2.stream_data i = hnd.stream_data i := by
  refine (transfer_bytes_spec hnd src available).2.2.2.2 i (Or.inr ?_)
  have := min_le_left hnd.stream_bytes_to_read available
  omega

lemma bank_bytes_so_far (hnd : Ice9Handle) (src : List Nat) (n : Nat) :
    (bank_bytes hnd src n).2.stream_bytes_read_so_far = hnd.stream_bytes_read_so_far := by
  simp only [bank_bytes]
  split <;> rfl

lemma bank_bytes_to_read (hnd : Ice9Handle) (src : List Nat) (n : Nat) :
    (bank_bytes hnd src n).2.stream_bytes_to_read = hnd.stream_bytes_to_read := by
  simp only [bank_bytes]
  split <;> rfl

lemma bank_bytes_stream_data (hnd : Ice9Handle) (src : List Nat) (n : Nat) :
    (bank_bytes hnd src n).2.stream_data = hnd.stream_data := by
  simp only [bank_bytes]
  split <;> rfl

lemma read_callback_stream_spec (hnd : Ice9Handle) (buffer : List Nat) (len : Nat) :
    (read_callback hnd buffer len).2.stream_bytes_read_so_far
        + (read_callback hnd buffer len).2.stream_bytes_to_read
      = hnd.stream_bytes_read_so_far + hnd.stream_bytes_to_read ∧
    ∀ i : Nat, hnd.stream_bytes_read_so_far + hnd.stream_bytes_to_read ≤ i →
      (read_callback hnd buffer len).2.stream_data i = hnd.stream_data i := by
  refine ⟨?_, fun i hi => ?_⟩
  · simp only [read_callback]
    split_ifs <;>
      simp only [bank_bytes_so_far, bank_bytes_to_read] <;>
      (rw [transfer_bytes_sum]
       exact transfer_bytes_sum hnd (readBytes hnd.extra_data_buffer hnd.extra_data_read_off hnd.extra_data_bytes) hnd.extra_data_bytes)
  · simp only [read_callback]
    split_ifs <;>
      simp only [bank_bytes_stream_data] <;>
      (rw [transfer_bytes_frame_ge]
       · exact transfer_bytes_frame_ge hnd (readBytes hnd.extra_data_buffer hnd.extra_data_read_off hnd.extra_data_bytes) hnd.extra_data_bytes i hi
       · exact le_of_eq_of_le (transfer_bytes_sum hnd (readBytes hnd.extra_data_buffer hnd.extra_data_read_off hnd.extra_data_bytes) hnd.extra_data_bytes) hi)

lemma and_ffff_eq_mod (x : Nat) : x &&& 0xFFFF = x % 65536 := by
  have h : (0xFFFF : Nat) = 2 ^ 16 - 1 := by norm_num
  rw [h, Nat.and_pow_two_sub_one_eq_mod]

lemma shiftRight16_lt (v : Nat) (hv : v < 4294967296) : v >>> 16 < 65536 := by
  rw [Nat.shiftRight_eq_div_pow]
  omega

/-- C2: Ring Buffer invariant.  Starting from the empty buffer created by
`ice9_new`, after every finite sequence of enqueue/drain calls the head and
tail indices lie in `[0, RING_BUFFER_SIZE)` and the byte count never
exceeds `RING_BUFFER_SIZE - 1`; an enqueue of `count` bytes writes exactly
`min count free_space` bytes (the byte count grows by exactly that) and
returns that number, never overflowing the buffer. -/
theorem ring_buffer_invariant (ops : List RingOp) (src : List Nat) (count : Nat) :
    (applyRingOps ice9_new ops).read_buffer_head < RING_BUFFER_SIZE ∧
    (applyRingOps ice9_new ops).read_buffer_tail < RING_BUFFER_SIZE ∧
    bytes_in_read_buffer (applyRingOps ice9_new ops) ≤ RING_BUFFER_SIZE - 1 ∧
    (enqueue_to_read_buffer (applyRingOps ice9_new ops) src count).1
      = min count (free_space_in_read_buffer (applyRingOps ice9_new ops)) ∧
    bytes_in_read_buffer (enqueue_to_read_buffer (applyRingOps ice9_new ops) src count).2
      = bytes_in_read_buffer (applyRingOps ice9_new ops)
        + min count (free_space_in_read_buffer (applyRingOps ice9_new ops)) := by
  obtain ⟨hh, ht⟩ := ringInv_applyRingOps ops ringInv_new
  have hesp := enqueue_spec (applyRingOps ice9_new ops) src count hh ht
  refine ⟨hh, ht, ?_, hesp.1, hesp.2.2.2⟩
  have : bytes_in_read_buffer (applyRingOps ice9_new ops) < RING_BUFFER_SIZE :=
    Nat.mod_lt _ (by simp [RING_BUFFER_SIZE])
  omega

/-- C7 (amended): Ring Buffer round-trip from an *empty* reachable buffer
state.  For every in-bounds buffer state holding zero bytes and every byte
sequence `s` with `s.length ≤ RING_BUFFER_SIZE - 1` (so `free_space ≥
s.length`), enqueueing `s` and immediately draining `s.length` bytes
returns `s.length` and yields exactly the bytes of `s` in order. -/
theorem ring_roundtrip_empty (hnd : Ice9Handle) (s : List Nat)
    (hh : hnd.read_buffer_head < RING_BUFFER_SIZE)
    (ht : hnd.read_buffer_tail < RING_BUFFER_SIZE)
    (hempty : bytes_in_read_buffer hnd = 0)
    (hlen : s.length ≤ RING_BUFFER_SIZE - 1) :
    (enqueue_to_read_buffer hnd s s.length).1 = s.length ∧
    (drain_from_read_buffer (enqueue_to_read_buffer hnd s s.length).2 s.length).1 = s := by
  obtain ⟨d, hd, tl, x1, x2, x3, x4, x5, x6⟩ := hnd
  simp only [bytes_in_read_buffer, RING_BUFFER_SIZE] at hempty hh ht
  have hht : hd = tl := by omega
  subst hht
  simp only [RING_BUFFER_SIZE] at hlen
  simp only [enqueue_to_read_buffer, drain_from_read_buffer, free_space_in_read_buffer,
    bytes_in_read_buffer, RING_BUFFER_SIZE]
  have h0 : (hd + 1024 * 1024 - hd) % (1024 * 1024) = 0 := by omega
  simp only [h0, Nat.sub_zero]
  have h2 : s.length ⊓ (1024 * 1024 - 1) = s.length := by omega
  simp only [h2]
  refine ⟨trivial, ?_⟩
  by_cases hcase : s.length ≤ 1024 * 1024 - hd
  · have hF : s.length ⊓ (1024 * 1024 - hd) = s.length := by omega
    simp only [hF, Nat.sub_self, List.take_zero, memwrite_nil, List.take_length, Nat.add_zero]
    have hb : ((hd + s.length) % (1024 * 1024) + 1024 * 1024 - hd) % (1024 * 1024)
        = s.length := by omega
    simp only [hb, Nat.min_self, hF]
    rw [readBytes_memwrite]
    simp only [Nat.sub_self, readBytes, List.append_nil]
  · have hF : s.length ⊓ (1024 * 1024 - hd) = 1024 * 1024 - hd := by omega
    simp only [hF]
    have hh1 : (hd + (1024 * 1024 - hd)) % (1024 * 1024) = 0 := by omega
    simp only [hh1, Nat.zero_add]
    have hb : (s.length - (1024 * 1024 - hd) + 1024 * 1024 - hd) % (1024 * 1024)
        = s.length := by omega
    simp only [hb, Nat.min_self, hF, hh1, Nat.zero_add]
    have hc2 : List.take (s.length - (1024 * 1024 - hd)) (List.drop (1024 * 1024 - hd) s)
        = List.drop (1024 * 1024 - hd) s :=
      List.take_of_length_le (by simp [List.length_drop])
    rw [readBytes_memwrite_disjoint_right]
    · rw [readBytes_memwrite_general]
      · rw [readBytes_memwrite_general]
        · rw [hc2, List.take_append_drop]
        · rw [hc2]
          simp [List.length_drop]
      · simp [List.length_take]
        omega
    · simp [List.length_take, List.length_drop]
      omega

/-- C7 (counterexample to the claim as stated): on a reachable *non-empty*
buffer state with ample free space, enqueue of `[5]` followed by a drain of
one byte returns the older byte `7`, not the just-enqueued `5` — the ring
buffer is FIFO, so enqueue-then-drain only round-trips from an empty
state. -/
theorem ring_roundtrip_nonempty_counterexample :
    free_space_in_read_buffer (enqueue_to_read_buffer ice9_new [7] 1).2 ≥ 1 ∧
    (drain_from_read_buffer
        (enqueue_to_read_buffer (enqueue_to_read_buffer ice9_new [7] 1).2 [5] 1).2 1).1
      = [7] ∧
    ([7] : List Nat) ≠ [5] := by
  decide

/-- Witness for `ring_roundtrip_empty` at the freshly created handle and
`s = [1, 2, 3]`. -/
theorem ring_roundtrip_empty_witness :
    (ice9_new.read_buffer_head < RING_BUFFER_SIZE ∧
      ice9_new.read_buffer_tail < RING_BUFFER_SIZE ∧
      bytes_in_read_buffer ice9_new = 0 ∧
      ([1, 2, 3] : List Nat).length ≤ RING_BUFFER_SIZE - 1) ∧
    ((enqueue_to_read_buffer ice9_new [1, 2, 3] 3).1 = 3 ∧
      (drain_from_read_buffer (enqueue_to_read_buffer ice9_new [1, 2, 3] 3).2 3).1
        = [1, 2, 3]) :=
  ⟨⟨by decide, by decide, by decide, by decide⟩,
    ring_roundtrip_empty ice9_new [1, 2, 3] (by decide) (by decide) (by decide) (by decide)⟩

/-- C5: Packet Destuffer on stride-aligned input.  For an input transfer
consisting of `k` full 512-byte strides, each a 2-byte header followed by
510 payload bytes, the destuffing loop outputs exactly `k * 510` bytes,
namely the concatenation of the `k` payload regions in order. -/
theorem destuffer_full_strides (packets : List (List Nat))
    (hp : ∀ p ∈ packets, p.length = 512) :
    destuff packets.flatten = (packets.map (fun p => p.drop 2)).flatten ∧
    (destuff packets.flatten).length = packets.length * 510 := by
  have h1 : destuff packets.flatten = (packets.map (fun p => p.drop 2)).flatten :=
    destuffLoop_strides packets packets.flatten.length hp le_rfl
  refine ⟨h1, ?_⟩
  rw [h1]
  exact flatten_drop2_length packets hp

set_option maxRecDepth 4000 in
/-- Witness for `destuffer_full_strides` on one concrete 512-byte stride. -/
theorem destuffer_full_strides_witness :
    (∀ p ∈ [List.range 512], p.length = 512) ∧
    (destuff ([List.range 512] : List (List Nat)).flatten
        = (([List.range 512] : List (List Nat)).map (fun p => p.drop 2)).flatten ∧
      (destuff ([List.range 512] : List (List Nat)).flatten).length
        = ([List.range 512] : List (List Nat)).length * 510) :=
  ⟨by decide, destuffer_full_strides [List.range 512] (by decide)⟩

/-- C8: Wire encoding is bit-exact.  `ice9_write_data_to_address` emits the
two header words `[0x0300 | addr, len]` then the payload words;
`ice9_read_data_from_address` writes `[0x0200 | addr, len]` and reads `len`
words back; `ice9_enable_streaming` writes the single word `0x0500 | addr`;
`ice9_disable_streaming` writes `0xFFFF`; and `ice9_write_int_to_address`
emits the most-significant 16-bit word of the value first. -/
theorem wire_encoding_exact (address : Nat) (data : List Nat) (len v : Nat)
    (hv : v < 4294967296) :
    ice9_write_data_to_address_trace address data data.length
      = [0x0300 ||| address, data.length] ++ data ∧
    ice9_read_data_from_address_trace address len = [0x0200 ||| address, len] ∧
    ice9_read_data_from_address_read_count len = len ∧
    ice9_enable_streaming_word address = 0x0500 ||| address ∧
    ice9_disable_streaming_word = 0xFFFF ∧
    ice9_write_int_to_address_trace address v
      = [0x0300 ||| address, 2, v >>> 16, v % 65536] := by
  refine ⟨?_, rfl, rfl, rfl, rfl, ?_⟩
  · simp [ice9_write_data_to_address_trace, ice9_write_words_trace]
  · simp only [ice9_write_int_to_address_trace, ice9_write_data_to_address_trace,
      ice9_write_words_trace, List.take_length]
    rw [and_ffff_eq_mod, and_ffff_eq_mod, Nat.mod_eq_of_lt (shiftRight16_lt v hv)]
    rfl

/-- Witness for `wire_encoding_exact` at address 3 and value `0xAABBCCDD`
(words `[0xAABB, 0xCCDD]`, most significant first). -/
theorem wire_encoding_exact_witness :
    (0xAABBCCDD : Nat) < 4294967296 ∧
    (ice9_write_data_to_address_trace 3 [0x1234, 0x5678] 2
        = [0x0300 ||| 3, 2] ++ [0x1234, 0x5678] ∧
      ice9_read_data_from_address_trace 3 5 = [0x0200 ||| 3, 5] ∧
      ice9_read_data_from_address_read_count 5 = 5 ∧
      ice9_enable_streaming_word 3 = 0x0500 ||| 3 ∧
      ice9_disable_streaming_word = 0xFFFF ∧
      ice9_write_int_to_address_trace 3 0xAABBCCDD
        = [0x0300 ||| 3, 2, 0xAABBCCDD >>> 16, 0xAABBCCDD % 65536]) :=
  ⟨by decide, wire_encoding_exact 3 [0x1234, 0x5678] 5 0xAABBCCDD (by decide)⟩

/-- C9: Ping.  `ice9_ping_bridge` writes the word `0x0100 | id`; a failing
write is propagated unchanged, a failing read is propagated unchanged
(never turned into `PingMismatch`), and when both transport calls succeed
the result is `OK` exactly when the reply's low 8 bits equal `id` and
`PingMismatch` exactly otherwise. -/
theorem ping_bridge_behaviour (pingid : Nat) (write_res read_res : Ice9Error)
    (pingret : Nat) :
    ice9_send_ping_word pingid = 0x0100 ||| pingid ∧
    (write_res ≠ Ice9Error.OK →
      ice9_ping_bridge pingid write_res read_res pingret = write_res) ∧
    (write_res = Ice9Error.OK → read_res ≠ Ice9Error.OK →
      ice9_ping_bridge pingid write_res read_res pingret = read_res) ∧
    (write_res = Ice9Error.OK → read_res = Ice9Error.OK →
      ((ice9_ping_bridge pingid write_res read_res pingret = Ice9Error.OK
          ↔ pingret &&& 0xFF = pingid) ∧
        (ice9_ping_bridge pingid write_res read_res pingret = Ice9Error.PingMismatch
          ↔ pingret &&& 0xFF ≠ pingid))) := by
  refine ⟨rfl, ?_, ?_, ?_⟩
  · intro hw
    simp [ice9_ping_bridge, hw]
  · intro hw hr
    simp [ice9_ping_bridge, hw, hr]
  · intro hw hr
    subst hw
    subst hr
    by_cases hm : pingret &&& 0xFF = pingid
    · simp [ice9_ping_bridge, hm]
    · simp [ice9_ping_bridge, hm]

/-- Witness for `ping_bridge_behaviour`: a write failure propagates as
itself, a read failure propagates as itself, the echoing transport yields
`OK` for id `0x67`, and a `0x99` reply yields `PingMismatch`. -/
theorem ping_bridge_behaviour_witness :
    ice9_ping_bridge 0x67 Ice9Error.LibUSBTimeout Ice9Error.OK 0x67
        = Ice9Error.LibUSBTimeout ∧
    ice9_ping_bridge 0x67 Ice9Error.OK Ice9Error.LibUSBPipeError 0x67
        = Ice9Error.LibUSBPipeError ∧
    (ice9_ping_bridge 0x67 Ice9Error.OK Ice9Error.OK 0x67 = Ice9Error.OK
      ↔ 0x67 &&& 0xFF = 0x67) ∧
    (ice9_ping_bridge 0x67 Ice9Error.OK Ice9Error.OK 0x99 = Ice9Error.PingMismatch
      ↔ 0x99 &&& 0xFF ≠ 0x67) :=
  ⟨(ping_bridge_behaviour 0x67 Ice9Error.LibUSBTimeout Ice9Error.OK 0x67).2.1 (by decide),
    (ping_bridge_behaviour 0x67 Ice9Error.OK Ice9Error.LibUSBPipeError 0x67).2.2.1 rfl
      (by decide),
    ((ping_bridge_behaviour 0x67 Ice9Error.OK Ice9Error.OK 0x67).2.2.2 rfl rfl).1,
    ((ping_bridge_behaviour 0x67 Ice9Error.OK Ice9Error.OK 0x99).2.2.2 rfl rfl).2⟩

set_option maxRecDepth 100000 in
/-- C1 (bug evaluation): blocking read end-to-end.  With an empty ring
buffer and a transport delivering 512-byte packets of a 2-byte prefix plus
510 incrementing payload bytes, `ice9_read` for 1000 bytes returns OK and
the destination holds exactly the first 1000 concatenated payload bytes —
but the ring buffer retains raw-packet bytes 490..509 of the second packet
(payload positions 998..1017), not the undelivered payload positions
1000..1019: the enqueue at src/ice9.c line 408 starts at
`buffer + pass_through` instead of `buffer + 2 + pass_through`, so two
payload bytes are duplicated into the stream and the last two are lost. -/
theorem ice9_read_leftover_offset_bug :
    (ice9_read ice9_new 1000 [c1_packet1, c1_packet2, c1_packet3]).map
        (fun r => (r.1, ringContents r.2.1, r.2.2.length))
      = some (c1_payload.take 1000, (c1_payload.drop 998).take 20, 1) ∧
    (c1_payload.drop 998).take 20 ≠ (c1_payload.drop 1000).take 20 := by
  decide

/-- C3 (bug evaluation): `bank_bytes` overflow check.  On a bank state
whose used region already holds `BANK_SIZE - 1` bytes at read offset 0,
banking 2 more bytes succeeds (returns 1) although the used region then
ends at `BANK_SIZE + 1 > BANK_SIZE`: the check at src/ice9.c line 276
compares `to_bank` against the read-cursor offset
(`extra_data_read_pointer - extra_data_buffer`) and ignores
`extra_data_bytes`, so the claimed "overflow exactly when the used region
would exceed capacity" fails and the `memcpy` runs past the buffer. -/
theorem bank_bytes_overflow_check_bug :
    (bank_bytes c3_state [1, 2] 2).1 = 1 ∧
    BANK_SIZE < c3_state.extra_data_read_off + c3_state.extra_data_bytes + 2 ∧
    (bank_bytes c3_state [1, 2] 2).2.extra_data_bytes = BANK_SIZE + 1 := by
  decide

/-- C4 (counterexample): the error mapping is not one-to-one.  The distinct
backend codes `-1` (LIBUSB_ERROR_IO) and `-7` (LIBUSB_ERROR_TIMEOUT) are
mapped to the same domain kind by each transport operation: `ice9_read`
and `ice9_stream_read` collapse both to `Error`, `ice9_write` collapses
both to `LibUSBIOError` — no code reaches the `LibUSBTimeout` &c. kinds. -/
theorem error_map_not_one_to_one :
    ice9_read_error_map (-1) = ice9_read_error_map (-7) ∧
    ice9_stream_read_error_map (-1) = ice9_stream_read_error_map (-7) ∧
    ice9_write_result (-1) 0 4 = ice9_write_result (-7) 0 4 ∧
    ((-1 : Int) ≠ (-7 : Int)) ∧
    ice9_read_error_map (-7) = some Ice9Error.Error ∧
    ice9_write_result (-7) 0 4 = Ice9Error.LibUSBIOError := by
  decide

/-- C4 (amended): every negative backend return code observed by
`ice9_read` and `ice9_stream_read` collapses to the generic `Error` kind,
and every negative code observed by `ice9_write` collapses to
`LibUSBIOError` (with `PartialWrite` reserved for short successful
transfers); there is no per-code mapping onto the LibUSB* family. -/
theorem error_map_collapses (ret : Int) (actual_length num_bytes : Nat)
    (hneg : ret < 0) :
    ice9_read_error_map ret = some Ice9Error.Error ∧
    ice9_stream_read_error_map ret = some Ice9Error.Error ∧
    ice9_write_result ret actual_length num_bytes = Ice9Error.LibUSBIOError := by
  simp [ice9_read_error_map, ice9_stream_read_error_map, ice9_write_result, hneg]

/-- Witness for `error_map_collapses` at the backend code `-7`
(LIBUSB_ERROR_TIMEOUT). -/
theorem error_map_collapses_witness :
    ((-7 : Int) < 0) ∧
    (ice9_read_error_map (-7) = some Ice9Error.Error ∧
      ice9_stream_read_error_map (-7) = some Ice9Error.Error ∧
      ice9_write_result (-7) 3 4 = Ice9Error.LibUSBIOError) :=
  ⟨by decide, error_map_collapses (-7) 3 4 (by decide)⟩

set_option maxRecDepth 10000 in
/-- C6 (counterexample to the claim as stated): `ice9_stream_read` never
touches the Bank Buffer.  After a stream read of 100 bytes fed a transfer
that destuffs to 150 bytes, the bank (`extra_data_bytes`) still holds 0
bytes, not the claimed 50 — the leftover goes to the Ring Buffer instead
(src/ice9.c line 372); the bank/callback path is not used by
`ice9_stream_read`. -/
theorem stream_read_bank_unused :
    ((ice9_stream_read ice9_new 100 [c6_transfer]).map
        (fun r => (r.2.1.extra_data_bytes, r.2.1.extra_data_read_off)))
      = some (0, 0) ∧
    (0 : Nat) ≠ 50 := by
  decide

set_option maxRecDepth 10000 in
/-- C6 (amended): streaming scenario through the Ring Buffer.  A
`ice9_stream_read` for 100 bytes fed one transfer destuffing to 150 bytes
fills the destination with the chunk's first 100 bytes, retains the
remaining 50 bytes in the Ring Buffer (the Bank Buffer stays empty), and a
subsequent `ice9_stream_read` for 50 bytes is satisfied entirely from the
Ring Buffer — succeeding with no transfers available — leaving the Ring
Buffer empty. -/
theorem stream_read_ring_scenario :
    ((ice9_stream_read ice9_new 100 [c6_transfer]).bind
        (fun r1 =>
          (ice9_stream_read r1.2.1 50 []).map
            (fun r2 =>
              (r1.1, ringContents r1.2.1, r1.2.1.extra_data_bytes,
                r2.1, bytes_in_read_buffer r2.2.1, r2.2.2.length))))
      = some (c6_chunk.take 100, c6_chunk.drop 100, 0, c6_chunk.drop 100, 0, 0) := by
  decide

/-- C10: stream-state invariant.  Every `transfer_bytes` call copies
exactly `min stream_bytes_to_read available` bytes into the destination at
offset `stream_bytes_read_so_far`, leaves the sum
`stream_bytes_read_so_far + stream_bytes_to_read` unchanged, and never
writes the destination outside the filled window; consequently every
`read_callback` invocation preserves that sum (the originally requested
byte count) and never writes the destination at or beyond it. -/
theorem stream_transfer_state_invariant :
    (∀ (hnd : Ice9Handle) (src : List Nat) (available : Nat),
      (transfer_bytes hnd src available).1 = min hnd.stream_bytes_to_read available ∧
      (transfer_bytes hnd src available).2.stream_bytes_read_so_far
        = hnd.stream_bytes_read_so_far + min hnd.stream_bytes_to_read available ∧
      (transfer_bytes hnd src available).2.stream_bytes_to_read
        = hnd.stream_bytes_to_read - min hnd.stream_bytes_to_read available ∧
      (transfer_bytes hnd src available).2.stream_bytes_read_so_far
          + (transfer_bytes hnd src available).2.stream_bytes_to_read
        = hnd.stream_bytes_read_so_far + hnd.stream_bytes_to_read ∧
      (∀ i : Nat,
        i < hnd.stream_bytes_read_so_far ∨
          hnd.stream_bytes_read_so_far + min hnd.stream_bytes_to_read available ≤ i →
        (transfer_bytes hnd src available).2.stream_data i = hnd.stream_data i)) ∧
    (∀ (hnd : Ice9Handle) (buffer : List Nat) (len : Nat),
      (read_callback hnd buffer len).2.stream_bytes_read_so_far
          + (read_callback hnd buffer len).2.stream_bytes_to_read
        = hnd.stream_bytes_read_so_far + hnd.stream_bytes_to_read ∧
      ∀ i : Nat, hnd.stream_bytes_read_so_far + hnd.stream_bytes_to_read ≤ i →
        (read_callback hnd buffer len).2.stream_data i = hnd.stream_data i) :=
  ⟨transfer_bytes_spec, read_callback_stream_spec⟩

/-- Witness for `stream_transfer_state_invariant` on a handle mid-request
(2 filled, 4 still wanted): the byte at offset 12, beyond the requested
window of 6, is untouched, and the sum is preserved by `read_callback`. -/
theorem stream_transfer_state_invariant_witness :
    (transfer_bytes c10_handle [9] 1).2.stream_data 12 = c10_handle.stream_data 12 ∧
    (read_callback c10_handle [9, 8] 2).2.stream_bytes_read_so_far
        + (read_callback c10_handle [9, 8] 2).2.stream_bytes_to_read
      = c10_handle.stream_bytes_read_so_far + c10_handle.stream_bytes_to_read ∧
    (read_callback c10_handle [9, 8] 2).2.stream_data 12 = c10_handle.stream_data 12 :=
  ⟨(stream_transfer_state_invariant.1 c10_handle [9] 1).2.2.2.2 12 (Or.inr (by decide)),
    (stream_transfer_state_invariant.2 c10_handle [9, 8] 2).1,
    (stream_transfer_state_invariant.2 c10_handle [9, 8] 2).2 12 (by decide)⟩
